import Mathlib

/-!
# Verification of the depre-city hedonic regression and prediction engine

Shallow embedding of the estimation core of the repository:

* `src/src/utils/matrix.ts` / `src/src/utils/llm.ts` — dense matrix type
  (transpose, multiply, Gauss-elimination inverse with pivot regularization)
  and the OLS solver with per-coefficient statistics;
* `src/src/utils/analysis.ts` (calculator part) — `predictPrice`,
  `calculatePriceRange`, `calculateComponentImpacts`;
* `src/unnamed/part_003` (final revision) — `generateMarketModel`.

JavaScript `number` values are modelled as real numbers (`ℝ`): the claims
under study are arithmetic identities and order facts, stated in exact real
arithmetic.  The ambient clock reads (`new Date().getFullYear()`, the
formatted date string) are passed as explicit parameters.  Optional
(`field?:`) record fields become `Option` values and JavaScript truthiness
tests on them are modelled field by field where the code performs them.
-/

namespace DepreCity

noncomputable section

open scoped Classical

/-! ## Matrix layer (`src/src/utils/matrix.ts`, duplicated in `llm.ts`)

A matrix is its row list (`this.data`); `rows`/`cols` are derived exactly as
the constructor derives them (`data.length`, `data[0].length`; an empty
`data` would make the constructor throw, the embedding reads length 0). -/

structure Matrix where
  data : List (List ℝ)

/-- `this.rows = data.length`. -/
def Matrix.rowsN (M : Matrix) : ℕ := M.data.length

/-- `this.cols = data[0].length`. -/
def Matrix.colsN (M : Matrix) : ℕ := M.data.headI.length

/-- `this.data[i][j]`, with out-of-range reads defaulting to 0 (the code only
reads in range for well-formed input). -/
def Matrix.entry (M : Matrix) (i j : ℕ) : ℝ := (M.data.getD i []).getD j 0

/-- All rows have the given length (the well-formedness the constructor
assumes). -/
def Matrix.WellFormed (M : Matrix) (c : ℕ) : Prop := ∀ row ∈ M.data, row.length = c

/-- `transpose()`: `newData[j][i] = data[i][j]` for `j < cols`, `i < rows`. -/
def Matrix.transpose (M : Matrix) : Matrix :=
  ⟨(List.range M.colsN).map fun j => M.data.map fun row => row.getD j 0⟩

/-- `multiply(other)`: entry `(i, j)` accumulates
`sum += data[i][k] * other.data[k][j]` for `k < this.cols`.  The running
`sum` is a left fold of additions, written here as a `List.sum`, equal over
`ℝ`. -/
def Matrix.multiply (A B : Matrix) : Matrix :=
  ⟨(List.range A.rowsN).map fun i =>
    (List.range B.colsN).map fun j =>
      ((List.range A.colsN).map fun k => A.entry i k * B.entry k j).sum⟩

/-- The pivot regularization of `inverse()`:
`if (Math.abs(pivot) < 1e-10) pivot = 1e-10`. -/
def clampPivot (x : ℝ) : ℝ := if |x| < 1e-10 then 1e-10 else x

/-- One iteration of the Gaussian elimination loop of `inverse()` at column
`i`: divide row `i` by the (clamped) pivot, then subtract
`factor * aug[i][j]` from every other row `k`. -/
def elimStep (n : ℕ) (aug : List (List ℝ)) (i : ℕ) : List (List ℝ) :=
  let p := clampPivot ((aug.getD i []).getD i 0)
  let normalized := aug.set i ((aug.getD i []).map (· / p))
  (List.range n).foldl
    (fun acc k =>
      if k = i then acc
      else
        let factor := (acc.getD k []).getD i 0
        acc.set k (List.zipWith (fun a b => a - factor * b)
          (acc.getD k []) (acc.getD i [])))
    normalized

/-- `inverse()`: augment with the identity, run the elimination loop over all
columns, and keep the right half (`aug[i].slice(n, 2n)`).  The embedding is
total: the pivot clamp makes every division well-defined, mirroring the code,
and the non-square throw is outside the square hypothesis of the claims. -/
def Matrix.inverse (M : Matrix) : Matrix :=
  let n := M.rowsN
  let aug0 := (List.range n).map fun i =>
    M.data.getD i [] ++ (List.range n).map fun j => if i = j then (1 : ℝ) else 0
  let aug := (List.range n).foldl (elimStep n) aug0
  ⟨aug.map fun row => (row.drop n).take n⟩

/-! Shape lemmas for the matrix layer. -/

theorem Matrix.transpose_rowsN (M : Matrix) : M.transpose.rowsN = M.colsN := by
  simp [Matrix.transpose, Matrix.rowsN]

theorem Matrix.transpose_wf (M : Matrix) : M.transpose.WellFormed M.rowsN := by
  intro row hrow
  simp only [Matrix.transpose] at hrow
  obtain ⟨j, -, rfl⟩ := List.mem_map.mp hrow
  simp [Matrix.rowsN]

theorem Matrix.multiply_rowsN (A B : Matrix) : (A.multiply B).rowsN = A.rowsN := by
  simp [Matrix.multiply, Matrix.rowsN]

theorem Matrix.multiply_wf (A B : Matrix) : (A.multiply B).WellFormed B.colsN := by
  intro row hrow
  simp only [Matrix.multiply] at hrow
  obtain ⟨i, -, rfl⟩ := List.mem_map.mp hrow
  simp

theorem getD_mem_of_lt {α : Type*} (l : List α) (n : ℕ) (d : α) (h : n < l.length) :
    l.getD n d ∈ l := by
  rw [List.getD_eq_getElem?_getD, List.getElem?_eq_getElem h]
  exact List.getElem_mem h

/-- A fold whose step preserves list length preserves it overall. -/
theorem foldl_length_eq {β : Type*} (f : List (List ℝ) → β → List (List ℝ))
    (h : ∀ acc b, (f acc b).length = acc.length) :
    ∀ (l : List β) (init : List (List ℝ)), (l.foldl f init).length = init.length := by
  intro l
  induction l with
  | nil => intro init; rfl
  | cons b t ih => intro init; rw [List.foldl_cons, ih, h]

theorem elimStep_length (n : ℕ) (aug : List (List ℝ)) (i : ℕ) :
    (elimStep n aug i).length = aug.length := by
  simp only [elimStep]
  rw [foldl_length_eq]
  · exact List.length_set ..
  · intro acc k
    by_cases hk : k = i <;> simp [hk]

/-- One elimination step keeps the augmented matrix an `n × (n + n)` array. -/
theorem elimStep_preserves (n i : ℕ) (aug : List (List ℝ))
    (hlen : aug.length = n) (hrows : ∀ row ∈ aug, row.length = n + n) (hi : i < n) :
    (elimStep n aug i).length = n ∧
      ∀ row ∈ elimStep n aug i, row.length = n + n := by
  refine ⟨by rw [elimStep_length, hlen], ?_⟩
  simp only [elimStep]
  have hnorm : ∀ row ∈ aug.set i
      ((aug.getD i []).map (· / clampPivot ((aug.getD i []).getD i 0))), row.length = n + n := by
    intro row hrow
    rcases List.mem_or_eq_of_mem_set hrow with h | rfl
    · exact hrows row h
    · rw [List.length_map]
      exact hrows _ (getD_mem_of_lt _ _ _ (hlen ▸ hi))
  have hnormlen : (aug.set i
      ((aug.getD i []).map (· / clampPivot ((aug.getD i []).getD i 0)))).length = n := by
    rw [List.length_set, hlen]
  generalize hA : aug.set i
      ((aug.getD i []).map (· / clampPivot ((aug.getD i []).getD i 0))) = A at hnorm hnormlen
  have key : ∀ (l : List ℕ) (acc : List (List ℝ)), acc.length = n →
      (∀ row ∈ acc, row.length = n + n) → (∀ k ∈ l, k < n) →
      ∀ row ∈ l.foldl
        (fun acc k =>
          if k = i then acc
          else acc.set k (List.zipWith (fun a b => a - (acc.getD k []).getD i 0 * b)
            (acc.getD k []) (acc.getD i []))) acc, row.length = n + n := by
    intro l
    induction l with
    | nil => intro acc _ hacc _ row hrow; exact hacc row hrow
    | cons k t ih =>
      intro acc hal hacc hkl row hrow
      rw [List.foldl_cons] at hrow
      by_cases hk : k = i
      · simp only [hk, if_pos rfl] at hrow
        exact ih acc hal hacc (fun x hx => hkl x (List.mem_cons_of_mem _ hx)) row hrow
      · simp only [if_neg hk] at hrow
        refine ih _ (by rw [List.length_set, hal]) ?_
          (fun x hx => hkl x (List.mem_cons_of_mem _ hx)) row hrow
        intro r hr
        rcases List.mem_or_eq_of_mem_set hr with h | rfl
        · exact hacc r h
        · rw [List.length_zipWith]
          have h1 : (acc.getD k []).length = n + n :=
            hacc _ (getD_mem_of_lt _ _ _ (hal ▸ hkl k (List.mem_cons_self k t)))
          have h2 : (acc.getD i []).length = n + n :=
            hacc _ (getD_mem_of_lt _ _ _ (hal ▸ hi))
          rw [h1, h2, min_self]
  intro row hrow
  exact key (List.range n) A hnormlen hnorm (fun k hk => List.mem_range.mp hk) row hrow

/-- The elimination fold keeps the augmented matrix an `n × (n + n)` array. -/
theorem elimFold_preserves (n : ℕ) :
    ∀ (l : List ℕ) (aug : List (List ℝ)), aug.length = n →
      (∀ row ∈ aug, row.length = n + n) → (∀ i ∈ l, i < n) →
      (l.foldl (elimStep n) aug).length = n ∧
        ∀ row ∈ l.foldl (elimStep n) aug, row.length = n + n := by
  intro l
  induction l with
  | nil => intro aug hl hr _; exact ⟨hl, hr⟩
  | cons i t ih =>
    intro aug hl hr hmem
    rw [List.foldl_cons]
    obtain ⟨h1, h2⟩ := elimStep_preserves n i aug hl hr (hmem i (List.mem_cons_self i t))
    exact ih _ h1 h2 (fun x hx => hmem x (List.mem_cons_of_mem _ hx))

theorem inverse_shape (M : Matrix) (n : ℕ) (hr : M.rowsN = n) (hc : M.colsN = n)
    (hwf : M.WellFormed n) :
    M.inverse.rowsN = n ∧ M.inverse.WellFormed n := by
  subst hr
  have hdata : M.inverse.data =
      ((List.range M.rowsN).foldl (elimStep M.rowsN)
        ((List.range M.rowsN).map fun i =>
          M.data.getD i [] ++ (List.range M.rowsN).map fun j =>
            if i = j then (1 : ℝ) else 0)).map
        (fun row => (row.drop M.rowsN).take M.rowsN) := rfl
  set n := M.rowsN with hn
  have haug0len : ((List.range n).map fun i =>
      M.data.getD i [] ++ (List.range n).map fun j =>
        if i = j then (1 : ℝ) else 0).length = n := by
    rw [List.length_map, List.length_range]
  have haug0rows : ∀ row ∈ (List.range n).map fun i =>
      M.data.getD i [] ++ (List.range n).map fun j =>
        if i = j then (1 : ℝ) else 0, row.length = n + n := by
    intro row hrow
    obtain ⟨i, hi, rfl⟩ := List.mem_map.mp hrow
    rw [List.length_append, List.length_map, List.length_range]
    have hrowlen : (M.data.getD i []).length = n :=
      hwf _ (getD_mem_of_lt _ _ _ (List.mem_range.mp hi))
    rw [hrowlen]
  obtain ⟨hlen, hrows⟩ := elimFold_preserves n (List.range n) _ haug0len haug0rows
    (fun i hi => List.mem_range.mp hi)
  constructor
  · rw [Matrix.rowsN, hdata, List.length_map]
    exact hlen
  · intro row hrow
    rw [hdata] at hrow
    obtain ⟨r, hr, rfl⟩ := List.mem_map.mp hrow
    rw [List.length_take, List.length_drop, hrows r hr]
    omega

/-! ## OLS solver with statistics (`src/src/utils/llm.ts`, `solveOLS`) -/

structure OLSResult where
  betas : List ℝ
  stdErrors : List ℝ
  tStats : List ℝ

/-- The ridge regularization step of `solveOLS`:
`XtX.data[i][i] += 0.0001` for every row index `i`. -/
def addRidge (M : Matrix) : Matrix :=
  ⟨M.data.enum.map fun p => p.2.set p.1 (p.2.getD p.1 0 + 0.0001)⟩

/-- The regularized inverse `(XᵗX + 0.0001·I)⁻¹` that `solveOLS` actually
computes and reads its coefficient variances from. -/
def xtxRidgedInverse (X : List (List ℝ)) : Matrix :=
  (addRidge ((Matrix.mk X).transpose.multiply (Matrix.mk X))).inverse

/-- The coefficient computation of `solveOLS`:
`beta = ((XᵗX + ridge)⁻¹ · Xᵗ) · y`, flattened from the column matrix
(`beta.data.map(row => row[0])`). -/
def olsBetas (X : List (List ℝ)) (y : List ℝ) : List ℝ :=
  (((xtxRidgedInverse X).multiply (Matrix.mk X).transpose).multiply
    ⟨y.map fun v => [v]⟩).data.map fun row => row.headI

/-- The `rss` accumulation loop of `solveOLS`: for each sample `i < n`,
`y_hat` accumulates `X_data[i][j] * betas[j]` over `j < p`, and `rss`
accumulates the squared residual. -/
def olsRssLoop (X : List (List ℝ)) (y betas : List ℝ) : ℝ :=
  (List.range X.length).foldl
    (fun acc i =>
      acc + (y.getD i 0 -
        (List.range X.headI.length).foldl
          (fun s j => s + (X.getD i []).getD j 0 * betas.getD j 0) 0) ^ 2)
    0

/-- The `sigma2` of `solveOLS`: `n > p ? rss / (n - p) : 0`. -/
def olsSigma2Loop (X : List (List ℝ)) (y : List ℝ) : ℝ :=
  if X.headI.length < X.length then
    olsRssLoop X y (olsBetas X y) / ((X.length : ℝ) - (X.headI.length : ℝ))
  else 0

/-- The standard errors of `solveOLS`:
`se_j = sqrt(max(0, sigma2 * XtX_inv[j][j]))` for `j < p`. -/
def olsStdErrors (X : List (List ℝ)) (y : List ℝ) : List ℝ :=
  (List.range X.headI.length).map fun j =>
    Real.sqrt (max 0 (olsSigma2Loop X y * (xtxRidgedInverse X).entry j j))

/-- The t-statistics of `solveOLS`: `se > 1e-10 ? betas[j] / se : 0`. -/
def olsTStats (X : List (List ℝ)) (y : List ℝ) : List ℝ :=
  (List.range X.headI.length).map fun j =>
    if 1e-10 < (olsStdErrors X y).getD j 0 then
      (olsBetas X y).getD j 0 / (olsStdErrors X y).getD j 0
    else 0

/-- `solveOLS(X, y)` (`llm.ts` lines 202-265), happy path: the `try` body
never throws for a non-empty rectangular `X` with matching `y`, and the
`catch` fallback is therefore not modelled.  The `for`-loop accumulators
(`sum`, `rss`) are left folds of additions. -/
def solveOLS (X : List (List ℝ)) (y : List ℝ) : OLSResult :=
  ⟨olsBetas X y, olsStdErrors X y, olsTStats X y⟩

theorem solveOLS_betas (X : List (List ℝ)) (y : List ℝ) :
    (solveOLS X y).betas = olsBetas X y := by
  rw [solveOLS]

theorem solveOLS_stdErrors (X : List (List ℝ)) (y : List ℝ) :
    (solveOLS X y).stdErrors = olsStdErrors X y := by
  rw [solveOLS]

theorem solveOLS_tStats (X : List (List ℝ)) (y : List ℝ) :
    (solveOLS X y).tStats = olsTStats X y := by
  rw [solveOLS]

/-- Residual sum of squares of a coefficient vector on `(X, y)`, written as a
sum over the row indices (the claim-side formulation of the solver's `rss`
loop). -/
def residualSumSquares (X : List (List ℝ)) (y betas : List ℝ) : ℝ :=
  ((List.range X.length).map fun i =>
    (y.getD i 0 -
      ((List.range X.headI.length).map fun j =>
        (X.getD i []).getD j 0 * betas.getD j 0).sum) ^ 2).sum

/-- `σ² = RSS / (n − p)` when `n > p`, else `0` — the error-variance formula
of the claim. -/
def olsSigma2 (X : List (List ℝ)) (y betas : List ℝ) : ℝ :=
  if X.headI.length < X.length then
    residualSumSquares X y betas / ((X.length : ℝ) - (X.headI.length : ℝ))
  else 0

/-- A `+=` accumulation loop is the sum of its contributions. -/
theorem foldl_add_eq_sum {α : Type*} (f : α → ℝ) (l : List α) :
    ∀ init : ℝ, l.foldl (fun a x => a + f x) init = init + (l.map f).sum := by
  induction l with
  | nil => intro init; simp
  | cons x t ih =>
    intro init
    rw [List.foldl_cons, ih, List.map_cons, List.sum_cons]
    ring

theorem getD_map_range {α : Type*} (f : ℕ → α) (p j : ℕ) (d : α) (h : j < p) :
    ((List.range p).map f).getD j d = f j := by
  rw [List.getD_eq_getElem?_getD, List.getElem?_map, List.getElem?_range h]
  rfl

/-- The `rss` loop of the solver computes the residual sum of squares. -/
theorem olsRssLoop_eq (X : List (List ℝ)) (y betas : List ℝ) :
    olsRssLoop X y betas = residualSumSquares X y betas := by
  rw [olsRssLoop, residualSumSquares]
  rw [foldl_add_eq_sum
    (fun i => (y.getD i 0 -
      (List.range X.headI.length).foldl
        (fun s j => s + (X.getD i []).getD j 0 * betas.getD j 0) 0) ^ 2)
    (List.range X.length) 0, zero_add]
  congr 1
  apply List.map_congr_left
  intro i _
  rw [foldl_add_eq_sum (fun j => (X.getD i []).getD j 0 * betas.getD j 0)
    (List.range X.headI.length) 0, zero_add]

/-- The solver's error variance agrees with the claim-side formula. -/
theorem olsSigma2Loop_eq (X : List (List ℝ)) (y : List ℝ) :
    olsSigma2Loop X y = olsSigma2 X y (olsBetas X y) := by
  rw [olsSigma2Loop, olsSigma2, olsRssLoop_eq]

theorem addRidge_rowsN (M : Matrix) : (addRidge M).rowsN = M.rowsN := by
  simp [addRidge, Matrix.rowsN]

theorem Matrix.inverse_rowsN (M : Matrix) : M.inverse.rowsN = M.rowsN := by
  have hdata : M.inverse.data =
      ((List.range M.rowsN).foldl (elimStep M.rowsN)
        ((List.range M.rowsN).map fun i =>
          M.data.getD i [] ++ (List.range M.rowsN).map fun j =>
            if i = j then (1 : ℝ) else 0)).map
        (fun row => (row.drop M.rowsN).take M.rowsN) := rfl
  rw [Matrix.rowsN, hdata, List.length_map,
    foldl_length_eq (elimStep M.rowsN) (fun acc b => elimStep_length M.rowsN acc b),
    List.length_map, List.length_range]

theorem olsBetas_length (X : List (List ℝ)) (y : List ℝ) :
    (olsBetas X y).length = X.headI.length := by
  have h2 : (xtxRidgedInverse X).rowsN = X.headI.length := by
    unfold xtxRidgedInverse
    rw [Matrix.inverse_rowsN, addRidge_rowsN, Matrix.multiply_rowsN, Matrix.transpose_rowsN]
    rfl
  unfold olsBetas
  rw [List.length_map]
  change (((xtxRidgedInverse X).multiply (Matrix.mk X).transpose).multiply
    ⟨y.map fun v => [v]⟩).rowsN = X.headI.length
  rw [Matrix.multiply_rowsN, Matrix.multiply_rowsN, h2]

/-! ## Calculator (`src/src/utils/analysis.ts`, calculator part):
`predictPrice`, `calculatePriceRange`, `calculateComponentImpacts`.

`new Date().getFullYear()` is passed as the explicit `currentYear`
parameter. -/

inductive ParkingType where
  | std
  | tandem
  | double
deriving DecidableEq

structure CalculatorInputs where
  areaCoefVal : ℝ
  year : ℝ
  sqft : ℝ
  bathrooms : ℝ
  bedrooms : ℝ
  assessment : ℝ
  propertyTax : ℝ
  strataFee : ℝ
  listPrice : Option ℝ
  condition : ℝ
  parkingType : ParkingType
  parkingSpots : ℝ
  isEndUnit : Bool
  hasAC : Bool
  isRainscreened : Bool

structure ModelCoefficients where
  intercept : ℝ
  coefSqft : ℝ
  coefAge : ℝ
  coefBath : ℝ
  coefBedrooms : ℝ
  coefCondition : ℝ
  coefRainscreen : ℝ
  coefAC : ℝ
  coefEndUnit : ℝ
  coefDoubleGarage : ℝ
  coefTandemGarage : ℝ
  coefExtraParking : ℝ
  coefAssessment : ℝ
  coefHasAssessment : ℝ
  coefTax : ℝ
  coefHasTax : ℝ
  coefFeePerSqft : ℝ
  coefListPrice : ℝ
  coefHasListPrice : ℝ
  isLogLinear : Bool
  stdError : ℝ

/-- Boolean input encoded as `1`/`0` (`inputs.isEndUnit ? 1 : 0` etc.). -/
def boolVal (b : Bool) : ℝ := if b then 1 else 0

/-- `hasAssessment = inputs.assessment > 0 ? 1 : 0`. -/
def hasAssessmentVal (i : CalculatorInputs) : ℝ := if 0 < i.assessment then 1 else 0

/-- `logAssessment = hasAssessment ? Math.log(inputs.assessment) : 0`. -/
def logAssessmentVal (i : CalculatorInputs) : ℝ :=
  if 0 < i.assessment then Real.log i.assessment else 0

/-- `hasTax = inputs.propertyTax > 0 ? 1 : 0`. -/
def hasTaxVal (i : CalculatorInputs) : ℝ := if 0 < i.propertyTax then 1 else 0

/-- `taxPerSqft = (hasTax && inputs.sqft > 0) ? inputs.propertyTax / inputs.sqft : 0`. -/
def taxPerSqftVal (i : CalculatorInputs) : ℝ :=
  if 0 < i.propertyTax ∧ 0 < i.sqft then i.propertyTax / i.sqft else 0

/-- `feePerSqft = (inputs.strataFee > 0 && inputs.sqft > 0)
? (inputs.strataFee * 12) / inputs.sqft : 0` (annualized fee per sqft). -/
def feePerSqftVal (i : CalculatorInputs) : ℝ :=
  if 0 < i.strataFee ∧ 0 < i.sqft then i.strataFee * 12 / i.sqft else 0

/-- `hasListPrice = (inputs.listPrice && inputs.listPrice > 0) ? 1 : 0`
(an absent or zero/negative optional list price gives 0). -/
def hasListPriceVal (i : CalculatorInputs) : ℝ :=
  match i.listPrice with
  | some lp => if 0 < lp then 1 else 0
  | none => 0

/-- `logListPrice = hasListPrice ? Math.log(inputs.listPrice) : 0`. -/
def logListPriceVal (i : CalculatorInputs) : ℝ :=
  match i.listPrice with
  | some lp => if 0 < lp then Real.log lp else 0
  | none => 0

/-- `extraParking = Math.max(0, inputs.parkingSpots - 1)`. -/
def extraParkingVal (i : CalculatorInputs) : ℝ := max 0 (i.parkingSpots - 1)

/-- `valParkingCoef`: `coefDoubleGarage` for a double garage,
`coefTandemGarage` for a tandem garage, else `0`. -/
def parkingCoefVal (i : CalculatorInputs) (c : ModelCoefficients) : ℝ :=
  match i.parkingType with
  | .double => c.coefDoubleGarage
  | .tandem => c.coefTandemGarage
  | .std => 0

/-- `predictPrice(inputs, coefficients)` (`analysis.ts` calculator part,
lines 286-365).  The log-linear branch exponentiates the full term sum; the
linear fallback branch is the term sum as written in the source (which has
no `feePerSqft * coefFeePerSqft` summand). -/
def predictPrice (currentYear : ℝ) (i : CalculatorInputs) (c : ModelCoefficients) : ℝ :=
  let age := currentYear - i.year
  if c.isLogLinear then
    Real.exp (c.intercept + i.sqft * c.coefSqft + age * c.coefAge +
      i.bathrooms * c.coefBath + i.bedrooms * c.coefBedrooms +
      i.condition * c.coefCondition + boolVal i.isRainscreened * c.coefRainscreen +
      boolVal i.isEndUnit * c.coefEndUnit + boolVal i.hasAC * c.coefAC +
      parkingCoefVal i c + extraParkingVal i * c.coefExtraParking +
      logAssessmentVal i * c.coefAssessment + hasAssessmentVal i * c.coefHasAssessment +
      taxPerSqftVal i * c.coefTax + hasTaxVal i * c.coefHasTax +
      feePerSqftVal i * c.coefFeePerSqft +
      logListPriceVal i * c.coefListPrice + hasListPriceVal i * c.coefHasListPrice +
      i.areaCoefVal)
  else
    c.intercept + i.sqft * c.coefSqft + age * c.coefAge +
      i.bathrooms * c.coefBath + i.bedrooms * c.coefBedrooms +
      i.condition * c.coefCondition + boolVal i.isRainscreened * c.coefRainscreen +
      boolVal i.isEndUnit * c.coefEndUnit + boolVal i.hasAC * c.coefAC +
      parkingCoefVal i c + extraParkingVal i * c.coefExtraParking +
      logAssessmentVal i * c.coefAssessment + hasAssessmentVal i * c.coefHasAssessment +
      taxPerSqftVal i * c.coefTax + hasTaxVal i * c.coefHasTax +
      logListPriceVal i * c.coefListPrice + hasListPriceVal i * c.coefHasListPrice +
      i.areaCoefVal

structure PriceRange where
  lowerBound : ℝ
  upperBound : ℝ

/-- The `Pick<ModelCoefficients, "isLogLinear" | "stdError">` argument of
`calculatePriceRange`. -/
structure RangeModel where
  isLogLinear : Bool
  stdError : ℝ

/-- `calculatePriceRange(price, coefficients)` (`analysis.ts` lines 396-416):
fixed `z = 1.28`; multiplicative margin `e^(z·se)` for log-linear models,
additive margin `z·se` for linear models. -/
def calculatePriceRange (price : ℝ) (c : RangeModel) : PriceRange :=
  if c.isLogLinear then
    ⟨price / Real.exp (1.28 * c.stdError), price * Real.exp (1.28 * c.stdError)⟩
  else
    ⟨price - 1.28 * c.stdError, price + 1.28 * c.stdError⟩

structure ComponentImpacts where
  valLoc : ℝ
  valAge : ℝ
  valCondition : ℝ
  valBath : ℝ
  valBeds : ℝ
  valParking : ℝ
  valFeatures : ℝ
  valAssessment : ℝ
  valTax : ℝ
  valFee : ℝ

/-- `calculateComponentImpacts(inputs, coefficients)` (`analysis.ts` lines
424-502).  The source recomputes the encoded terms with the same formulas as
`predictPrice`; the shared helper definitions above are reused verbatim. -/
def calculateComponentImpacts (currentYear : ℝ) (i : CalculatorInputs)
    (c : ModelCoefficients) : ComponentImpacts :=
  let finalPrice := predictPrice currentYear i c
  let age := currentYear - i.year
  let totalParkingCoef := parkingCoefVal i c + extraParkingVal i * c.coefExtraParking
  let amenitiesCoef := boolVal i.isEndUnit * c.coefEndUnit + boolVal i.hasAC * c.coefAC +
    boolVal i.isRainscreened * c.coefRainscreen
  let assessmentCoef := logAssessmentVal i * c.coefAssessment +
    hasAssessmentVal i * c.coefHasAssessment
  let taxCoef := taxPerSqftVal i * c.coefTax + hasTaxVal i * c.coefHasTax
  let feeCoef := feePerSqftVal i * c.coefFeePerSqft
  let valLoc := finalPrice -
    (if c.isLogLinear then finalPrice / Real.exp i.areaCoefVal else 0)
  let pNoAge := if c.isLogLinear then finalPrice / Real.exp (age * c.coefAge)
    else finalPrice - age * c.coefAge
  let pCond1 := if c.isLogLinear then
      finalPrice / Real.exp ((i.condition - 1) * c.coefCondition)
    else finalPrice - (i.condition - 1) * c.coefCondition
  let p1Bath := if c.isLogLinear then
      finalPrice / Real.exp ((i.bathrooms - 1) * c.coefBath)
    else finalPrice - (i.bathrooms - 1) * c.coefBath
  let p2Beds := if c.isLogLinear then
      finalPrice / Real.exp ((i.bedrooms - 2) * c.coefBedrooms)
    else finalPrice - (i.bedrooms - 2) * c.coefBedrooms
  let pNoParking := if c.isLogLinear then finalPrice / Real.exp totalParkingCoef
    else finalPrice - totalParkingCoef
  let pNoAmenities := if c.isLogLinear then finalPrice / Real.exp amenitiesCoef
    else finalPrice - amenitiesCoef
  let pBaselineAssessment := if c.isLogLinear then finalPrice / Real.exp assessmentCoef
    else finalPrice - assessmentCoef
  let pNoTax := if c.isLogLinear then finalPrice / Real.exp taxCoef
    else finalPrice - taxCoef
  let pNoFee := if c.isLogLinear then finalPrice / Real.exp feeCoef
    else finalPrice - feeCoef
  ⟨valLoc, finalPrice - pNoAge, finalPrice - pCond1, finalPrice - p1Bath,
    finalPrice - p2Beds, finalPrice - pNoParking, finalPrice - pNoAmenities,
    finalPrice - pBaselineAssessment, finalPrice - pNoTax, finalPrice - pNoFee⟩

/-- Follows the words of spec section 4.4 for claim C5: intercept plus every
encoded term times its coefficient plus the location adjustment, the same
term set for both specifications (in particular it contains the annualized
strata-fee-per-square-foot term). -/
def specTermSum (currentYear : ℝ) (i : CalculatorInputs) (c : ModelCoefficients) : ℝ :=
  c.intercept + i.sqft * c.coefSqft + (currentYear - i.year) * c.coefAge +
    i.bathrooms * c.coefBath + i.bedrooms * c.coefBedrooms +
    i.condition * c.coefCondition + boolVal i.isRainscreened * c.coefRainscreen +
    boolVal i.isEndUnit * c.coefEndUnit + boolVal i.hasAC * c.coefAC +
    parkingCoefVal i c + extraParkingVal i * c.coefExtraParking +
    logAssessmentVal i * c.coefAssessment + hasAssessmentVal i * c.coefHasAssessment +
    taxPerSqftVal i * c.coefTax + hasTaxVal i * c.coefHasTax +
    feePerSqftVal i * c.coefFeePerSqft +
    logListPriceVal i * c.coefListPrice + hasListPriceVal i * c.coefHasListPrice +
    i.areaCoefVal

/-- Follows the words of spec section 4.5 for claim C4: the counterfactual
price with a group's contribution removed — `finalPrice / e^(term)` for a
log-linear model, `finalPrice − term` for a linear one. -/
def specCounterfactual (isLogLinear : Bool) (finalPrice term : ℝ) : ℝ :=
  if isLogLinear then finalPrice / Real.exp term else finalPrice - term

/-! ## Model builder (`src/unnamed/part_003`, final revision of
`generateMarketModel`, lines 584-762)

The `Listing` interface extends `Partial<DeepData>`, so the deep-extraction
fields are optional; fields the builder never reads (`levels`,
`outdoorSpace`, `isRainscreened`, `schools`, `description`, `features`) are
omitted from the embedding.  The formatted date string and
`new Date().getFullYear()` are explicit parameters.  The return type is
`Option`: `none` models the `TypeError` thrown by `sortedLocations[0][0]`
when the valid dataset is empty. -/

inductive DeepParkingType where
  | underground
  | carport
  | garage_double
  | garage_tandem
  | street
  | other
deriving DecidableEq

structure ListingTH where
  address : String
  city : String
  subArea : Option String
  sqft : ℝ
  year : ℝ
  fee : ℝ
  price : ℝ
  listPrice : Option ℝ
  rainscreen : Bool
  condition : Option ℝ
  bedrooms : Option ℝ
  bathrooms : Option ℝ
  parking : Option ℝ
  assessment : Option ℝ
  propertyTax : Option ℝ
  parkingType : Option DeepParkingType
  isEndUnit : Option Bool
  hasAC : Option Bool

/-- JavaScript `o || dflt` on an optional number: an absent field or a zero
value (falsy) yields the default. -/
def jsOr (o : Option ℝ) (dflt : ℝ) : ℝ :=
  match o with
  | none => dflt
  | some v => if v = 0 then dflt else v

/-- JavaScript `o ? 1 : 0` on an optional boolean. -/
def optBoolVal (o : Option Bool) : ℝ :=
  match o with
  | some true => 1
  | _ => 0

/-- `normalizeLocation(city, subArea)`: `"{city.trim()} - {subArea ?
subArea.trim() : 'Other'}"` (an absent or empty sub-area is falsy). -/
def normalizeLocation (city : String) (subArea : Option String) : String :=
  let c := city.trim
  let s := match subArea with
    | none => "Other"
    | some t => if t = "" then "Other" else t.trim
  c ++ " - " ++ s

def listingLocation (d : ListingTH) : String := normalizeLocation d.city d.subArea

/-- The validity filter of the final model builder (`part_003` line 587):
`d.price > 100000 && d.sqft > 300 && d.year > 1900 && d.fee > 0`. -/
def IsValidTH (d : ListingTH) : Prop :=
  100000 < d.price ∧ 300 < d.sqft ∧ 1900 < d.year ∧ 0 < d.fee

/-- `validData` of the final model builder. -/
def validDataTH (data : List ListingTH) : List ListingTH :=
  data.filter fun d => decide (IsValidTH d)

/-- The validity filter of the earlier calculator-era model builder
(`src/src/utils/analysis.ts` line 78):
`d.price > 100000 && d.sqft > 300 && d.year > 1900`. -/
def IsValidLegacy (d : ListingTH) : Prop :=
  100000 < d.price ∧ 300 < d.sqft ∧ 1900 < d.year

/-- `validData` of the earlier calculator-era model builder. -/
def validDataLegacy (data : List ListingTH) : List ListingTH :=
  data.filter fun d => decide (IsValidLegacy d)

/-- One step of the frequency count: JavaScript object insertion keeps the
key order of first appearance, so the accumulator is an association list and
a fresh key is appended at the end. -/
def bumpCount : List (String × ℕ) → String → List (String × ℕ)
  | [], loc => [(loc, 1)]
  | (k, c) :: rest, loc =>
    if k = loc then (k, c + 1) :: rest else (k, c) :: bumpCount rest loc

/-- `counts`: frequency of each location, keys in order of first appearance
(`Object.entries` order). -/
def countsList (locs : List String) : List (String × ℕ) := locs.foldl bumpCount []

/-- Stable insertion for the descending-by-count sort
(`sort((a, b) => b[1] - a[1])`, stable per the JavaScript specification). -/
def insertDesc (x : String × ℕ) : List (String × ℕ) → List (String × ℕ)
  | [] => [x]
  | y :: ys => if y.2 ≤ x.2 then x :: y :: ys else y :: insertDesc x ys

/-- Stable sort of the `(location, count)` pairs by count, descending. -/
def sortDesc : List (String × ℕ) → List (String × ℕ)
  | [] => []
  | x :: xs => insertDesc x (sortDesc xs)

/-- `sortedLocations` for a batch. -/
def sortedLocationsOf (data : List ListingTH) : List (String × ℕ) :=
  sortDesc (countsList ((validDataTH data).map listingLocation))

/-- `referenceLocation = sortedLocations[0][0]`; `none` when the read would
throw. -/
def referenceLocationOf (data : List ListingTH) : Option String :=
  (sortedLocationsOf data).head?.map Prod.fst

/-- `distinctAreas`: every observed location except the reference. -/
def distinctAreasOf (data : List ListingTH) : List String :=
  match referenceLocationOf data with
  | none => []
  | some ref => ((sortedLocationsOf data).map Prod.fst).filter fun l => decide (l ≠ ref)

/-- One row of the design matrix (`part_003` lines 618-665): 17 fixed
features `[1, sqft, age, baths, beds, condition, rainscreen, AC, end,
doubleG, tandemG, extraParking, logAssessment, hasAssessment, taxPerSqft,
hasTax, feePerSqft]` followed by one dummy per non-reference area. -/
def designRowTH (currentYear : ℝ) (areas : List String) (d : ListingTH) : List ℝ :=
  let age := currentYear - d.year
  let baths := jsOr d.bathrooms 1
  let beds := jsOr d.bedrooms 2
  let feePerSqft := if 0 < d.fee then d.fee * 12 / d.sqft else 0
  let condition := jsOr d.condition 3
  let isRainscreen : ℝ := if d.rainscreen then 1 else 0
  let isDouble : ℝ := if d.parkingType = some DeepParkingType.garage_double then 1 else 0
  let isTandem : ℝ := if d.parkingType = some DeepParkingType.garage_tandem then 1 else 0
  let extraParking : ℝ := max 0 (jsOr d.parking 1 - 1)
  let isEnd := optBoolVal d.isEndUnit
  let hasAC := optBoolVal d.hasAC
  let hasAssessment : ℝ := match d.assessment with
    | some a => if 0 < a then 1 else 0
    | none => 0
  let logAssessment : ℝ := match d.assessment with
    | some a => if 0 < a then Real.log a else 0
    | none => 0
  let hasTax : ℝ := match d.propertyTax with
    | some t => if 0 < t then 1 else 0
    | none => 0
  let taxPerSqft : ℝ := match d.propertyTax with
    | some t => if 0 < t then t / d.sqft else 0
    | none => 0
  [1, d.sqft, age, baths, beds, condition, isRainscreen, hasAC, isEnd, isDouble,
    isTandem, extraParking, logAssessment, hasAssessment, taxPerSqft, hasTax,
    feePerSqft] ++
    areas.map fun area => if listingLocation d = area then (1 : ℝ) else 0

/-- The design matrix `X` of the final model builder. -/
def designMatrixTH (currentYear : ℝ) (data : List ListingTH) : List (List ℝ) :=
  (validDataTH data).map (designRowTH currentYear (distinctAreasOf data))

/-- `ss.mean`. -/
def listMean (l : List ℝ) : ℝ := l.sum / l.length

/-- `listPriceHeat`: average sold/list ratio over the valid listings with a
positive list price, defaulting to `1.0`. -/
def listPriceHeatOf (data : List ListingTH) : ℝ :=
  let vl := (validDataTH data).filter fun d =>
    match d.listPrice with
    | some lp => decide (0 < lp)
    | none => false
  if 0 < vl.length then (vl.map fun d => d.price / d.listPrice.getD 0).sum / vl.length
  else 1.0

structure TStatsTH where
  intercept : ℝ
  coefSqft : ℝ
  coefAge : ℝ
  coefBath : ℝ
  coefBedrooms : ℝ
  coefCondition : ℝ
  coefRainscreen : ℝ
  coefAC : ℝ
  coefEndUnit : ℝ
  coefDoubleGarage : ℝ
  coefTandemGarage : ℝ
  coefExtraParking : ℝ
  coefAssessment : ℝ
  coefHasAssessment : ℝ
  coefTax : ℝ
  coefHasTax : ℝ
  coefFeePerSqft : ℝ
  areaCoefficients : List (String × ℝ)

structure MarketModelTH where
  generatedAt : String
  sampleSize : ℕ
  intercept : ℝ
  coefSqft : ℝ
  coefAge : ℝ
  coefBath : ℝ
  coefBedrooms : ℝ
  coefCondition : ℝ
  coefRainscreen : ℝ
  coefAC : ℝ
  coefEndUnit : ℝ
  coefDoubleGarage : ℝ
  coefTandemGarage : ℝ
  coefExtraParking : ℝ
  coefAssessment : ℝ
  coefHasAssessment : ℝ
  coefTax : ℝ
  coefHasTax : ℝ
  coefFeePerSqft : ℝ
  listPriceHeat : ℝ
  areaCoefficients : List (String × ℝ)
  areaReference : String
  tStats : TStatsTH
  modelConfidence : ℝ
  stdError : ℝ
  isLogLinear : Bool

/-- `generateMarketModel(data)` (`part_003` lines 584-762).  Returns `none`
exactly where the source throws: `sortedLocations[0][0]` on an empty valid
dataset.  `today` stands for the formatted `generatedAt` date string and
`currentYear` for the clock year read inside the function. -/
def generateMarketModelTH (today : String) (currentYear : ℝ)
    (data : List ListingTH) : Option MarketModelTH :=
  let validData := validDataTH data
  let listPriceHeat := listPriceHeatOf data
  match (sortedLocationsOf data).head? with
  | none => none
  | some (referenceLocation, _) =>
    let distinctAreas :=
      ((sortedLocationsOf data).map Prod.fst).filter fun l => decide (l ≠ referenceLocation)
    let y := validData.map fun d => Real.log d.price
    let X := validData.map (designRowTH currentYear distinctAreas)
    let r := solveOLS X y
    let betas := if (∀ b ∈ r.betas, b = 0) ∧ validData ≠ [] then
        r.betas.set 0 (listMean y)
      else r.betas
    let yMean := listMean y
    let finalRSS := ((List.range X.length).map fun i =>
      (y.getD i 0 - ((X.getD i []).enum.map fun q => q.2 * betas.getD q.1 0).sum) ^ 2).sum
    let finalTSS := ((List.range X.length).map fun i => (y.getD i 0 - yMean) ^ 2).sum
    let r2 := if 0 < finalTSS then 1 - finalRSS / finalTSS else 0
    let p := X.headI.length
    let n := validData.length
    let stdError := if p < n then Real.sqrt (finalRSS / ((n : ℝ) - (p : ℝ))) else 0
    some
      { generatedAt := today
        sampleSize := validData.length
        intercept := betas.getD 0 0
        coefSqft := betas.getD 1 0
        coefAge := betas.getD 2 0
        coefBath := betas.getD 3 0
        coefBedrooms := betas.getD 4 0
        coefCondition := betas.getD 5 0
        coefRainscreen := betas.getD 6 0
        coefAC := betas.getD 7 0
        coefEndUnit := betas.getD 8 0
        coefDoubleGarage := betas.getD 9 0
        coefTandemGarage := betas.getD 10 0
        coefExtraParking := betas.getD 11 0
        coefAssessment := betas.getD 12 0
        coefHasAssessment := betas.getD 13 0
        coefTax := betas.getD 14 0
        coefHasTax := betas.getD 15 0
        coefFeePerSqft := betas.getD 16 0
        listPriceHeat := listPriceHeat
        areaCoefficients := (referenceLocation, (0 : ℝ)) ::
          distinctAreas.enum.map fun q => (q.2, betas.getD (17 + q.1) 0)
        areaReference := referenceLocation
        tStats :=
          { intercept := r.tStats.getD 0 0
            coefSqft := r.tStats.getD 1 0
            coefAge := r.tStats.getD 2 0
            coefBath := r.tStats.getD 3 0
            coefBedrooms := r.tStats.getD 4 0
            coefCondition := r.tStats.getD 5 0
            coefRainscreen := r.tStats.getD 6 0
            coefAC := r.tStats.getD 7 0
            coefEndUnit := r.tStats.getD 8 0
            coefDoubleGarage := r.tStats.getD 9 0
            coefTandemGarage := r.tStats.getD 10 0
            coefExtraParking := r.tStats.getD 11 0
            coefAssessment := r.tStats.getD 12 0
            coefHasAssessment := r.tStats.getD 13 0
            coefTax := r.tStats.getD 14 0
            coefHasTax := r.tStats.getD 15 0
            coefFeePerSqft := r.tStats.getD 16 0
            areaCoefficients := (referenceLocation, (0 : ℝ)) ::
              distinctAreas.enum.map fun q => (q.2, r.tStats.getD (17 + q.1) 0) }
        modelConfidence := r2
        stdError := stdError
        isLogLinear := true }

/-! Lemmas about the location-frequency pipeline. -/

theorem bumpCount_keys (acc : List (String × ℕ)) (loc : String) :
    (bumpCount acc loc).map Prod.fst =
      if loc ∈ acc.map Prod.fst then acc.map Prod.fst
      else acc.map Prod.fst ++ [loc] := by
  induction acc with
  | nil => simp [bumpCount]
  | cons kv rest ih =>
    obtain ⟨k, c⟩ := kv
    by_cases hk : k = loc
    · subst hk
      simp [bumpCount]
    · simp only [bumpCount, if_neg hk, List.map_cons, ih, List.mem_cons]
      by_cases hmem : loc ∈ rest.map Prod.fst
      · simp [hmem]
      · have hne : ¬loc = k := fun h => hk h.symm
        simp [hmem, hne]

theorem countsList_foldl (locs : List String) :
    ∀ acc : List (String × ℕ), (acc.map Prod.fst).Nodup →
      ((locs.foldl bumpCount acc).map Prod.fst).Nodup ∧
        ∀ s, s ∈ (locs.foldl bumpCount acc).map Prod.fst ↔
          s ∈ acc.map Prod.fst ∨ s ∈ locs := by
  induction locs with
  | nil =>
    intro acc hacc
    exact ⟨hacc, fun s => by simp⟩
  | cons loc t ih =>
    intro acc hacc
    rw [List.foldl_cons]
    have hkeys := bumpCount_keys acc loc
    by_cases hmem : loc ∈ acc.map Prod.fst
    · rw [if_pos hmem] at hkeys
      obtain ⟨h1, h2⟩ := ih (bumpCount acc loc) (hkeys ▸ hacc)
      refine ⟨h1, fun s => ?_⟩
      rw [h2, hkeys, List.mem_cons]
      constructor
      · rintro (h | h)
        · exact Or.inl h
        · exact Or.inr (Or.inr h)
      · rintro (h | rfl | h)
        · exact Or.inl h
        · exact Or.inl hmem
        · exact Or.inr h
    · rw [if_neg hmem] at hkeys
      have hnodup : ((bumpCount acc loc).map Prod.fst).Nodup := by
        rw [hkeys, List.nodup_append]
        exact ⟨hacc, List.nodup_singleton loc,
          fun s hs hl => hmem ((List.mem_singleton.mp hl) ▸ hs)⟩
      obtain ⟨h1, h2⟩ := ih (bumpCount acc loc) hnodup
      refine ⟨h1, fun s => ?_⟩
      rw [h2, hkeys, List.mem_append, List.mem_singleton, List.mem_cons]
      tauto

theorem countsList_keys_nodup (locs : List String) :
    ((countsList locs).map Prod.fst).Nodup :=
  (countsList_foldl locs [] (by simp)).1

theorem countsList_keys_mem (locs : List String) (s : String) :
    s ∈ (countsList locs).map Prod.fst ↔ s ∈ locs := by
  have h := (countsList_foldl locs [] (by simp)).2 s
  simp only [List.map_nil, List.not_mem_nil, false_or] at h
  exact h

theorem insertDesc_perm (x : String × ℕ) (l : List (String × ℕ)) :
    List.Perm (insertDesc x l) (x :: l) := by
  induction l with
  | nil => rfl
  | cons y ys ih =>
    by_cases h : y.2 ≤ x.2
    · rw [insertDesc, if_pos h]
    · rw [insertDesc, if_neg h]
      exact (ih.cons y).trans (List.Perm.swap x y ys)

theorem sortDesc_perm (l : List (String × ℕ)) : List.Perm (sortDesc l) l := by
  induction l with
  | nil => rfl
  | cons x xs ih => exact (insertDesc_perm x (sortDesc xs)).trans (ih.cons x)

theorem length_filter_ne (l : List String) (a : String)
    (hnd : l.Nodup) (ha : a ∈ l) :
    (l.filter fun x => decide (x ≠ a)).length = l.length - 1 := by
  induction l with
  | nil => cases ha
  | cons b t ih =>
    rcases List.nodup_cons.mp hnd with ⟨hbt, hndt⟩
    by_cases hba : b = a
    · have hna : a ∉ t := hba ▸ hbt
      have hkeep : t.filter (fun x => decide (x ≠ a)) = t :=
        List.filter_eq_self.mpr fun x hx => decide_eq_true fun hxa => hna (hxa ▸ hx)
      have hb : (decide (b ≠ a)) = false := by simp [hba]
      rw [List.filter_cons, if_neg (by simp [hb]), hkeep]
      simp
    · have hat : a ∈ t := (List.mem_cons.mp ha).resolve_left fun h => hba h.symm
      have hpos : 0 < t.length := List.length_pos.mpr (List.ne_nil_of_mem hat)
      have hb : (decide (b ≠ a)) = true := decide_eq_true hba
      rw [List.filter_cons, if_pos hb, List.length_cons, ih hndt hat]
      simp only [List.length_cons]
      omega

theorem designRowTH_length (cy : ℝ) (areas : List String) (d : ListingTH) :
    (designRowTH cy areas d).length = 17 + areas.length := by
  simp [designRowTH]
  omega

/-- With a non-empty valid dataset the sorted location list is non-empty and
its keys are exactly the distinct observed locations. -/
theorem sortedLocations_keys (data : List ListingTH) :
    ((sortedLocationsOf data).map Prod.fst).Nodup ∧
      ∀ s, s ∈ (sortedLocationsOf data).map Prod.fst ↔
        s ∈ (validDataTH data).map listingLocation := by
  have hperm : List.Perm ((sortedLocationsOf data).map Prod.fst)
      ((countsList ((validDataTH data).map listingLocation)).map Prod.fst) :=
    (sortDesc_perm _).map Prod.fst
  constructor
  · exact hperm.nodup_iff.mpr (countsList_keys_nodup _)
  · intro s
    rw [hperm.mem_iff, countsList_keys_mem]

theorem distinctAreasOf_length (data : List ListingTH)
    (h : validDataTH data ≠ []) :
    (distinctAreasOf data).length + 1 =
      ((validDataTH data).map listingLocation).toFinset.card := by
  obtain ⟨hnodup, hmem⟩ := sortedLocations_keys data
  have hlocs : (validDataTH data).map listingLocation ≠ [] := fun hn =>
    h (List.map_eq_nil_iff.mp hn)
  have hsorted : sortedLocationsOf data ≠ [] := by
    intro hs
    obtain ⟨d, hd⟩ := List.exists_mem_of_ne_nil _ h
    have : listingLocation d ∈ (sortedLocationsOf data).map Prod.fst :=
      (hmem _).mpr (List.mem_map_of_mem listingLocation hd)
    rw [hs] at this
    cases this
  obtain ⟨hd, tl, hcons⟩ := List.exists_cons_of_ne_nil hsorted
  have href : referenceLocationOf data = some hd.1 := by
    rw [referenceLocationOf, hcons]
    rfl
  have hrefmem : hd.1 ∈ (sortedLocationsOf data).map Prod.fst := by
    rw [hcons]
    exact List.mem_cons_self _ _
  have hfilter : (distinctAreasOf data).length =
      ((sortedLocationsOf data).map Prod.fst).length - 1 := by
    rw [distinctAreasOf, href]
    exact length_filter_ne _ _ hnodup hrefmem
  have hcard : ((sortedLocationsOf data).map Prod.fst).length =
      ((validDataTH data).map listingLocation).toFinset.card := by
    have hfs : ((sortedLocationsOf data).map Prod.fst).toFinset =
        ((validDataTH data).map listingLocation).toFinset := by
      apply Finset.ext
      intro s
      rw [List.mem_toFinset, List.mem_toFinset]
      exact hmem s
    rw [← List.toFinset_card_of_nodup hnodup, hfs]
  have hpos : 0 < ((sortedLocationsOf data).map Prod.fst).length := by
    rw [hcons]
    simp
  omega

/-- The elimination of the empty valid dataset: the sorted location list is
empty, so the builder hits the `sortedLocations[0][0]` read. -/
theorem sortedLocationsOf_eq_nil (data : List ListingTH)
    (h : validDataTH data = []) : sortedLocationsOf data = [] := by
  rw [sortedLocationsOf, h]
  rfl

/-! ## Concrete records used by witnesses and counterexamples -/

/-- A listing that passes every validity condition of both builders. -/
def sampleListing : ListingTH :=
  { address := "unit 1", city := "Coquitlam", subArea := none, sqft := 1000,
    year := 2000, fee := 300, price := 500000, listPrice := none,
    rainscreen := false, condition := none, bedrooms := none, bathrooms := none,
    parking := none, assessment := none, propertyTax := none, parkingType := none,
    isEndUnit := none, hasAC := none }

/-- A listing with price, square footage and year valid but a zero strata
fee. -/
def feelessListing : ListingTH :=
  { address := "unit 2", city := "Coquitlam", subArea := none, sqft := 1000,
    year := 2000, fee := 0, price := 500000, listPrice := none,
    rainscreen := false, condition := none, bedrooms := none, bathrooms := none,
    parking := none, assessment := none, propertyTax := none, parkingType := none,
    isEndUnit := none, hasAC := none }

/-- Calculator inputs that are all at their zero/baseline values. -/
def baselineInputs : CalculatorInputs :=
  { areaCoefVal := 0, year := 0, sqft := 0, bathrooms := 0, bedrooms := 0,
    assessment := 0, propertyTax := 0, strataFee := 0, listPrice := none,
    condition := 0, parkingType := ParkingType.std, parkingSpots := 1,
    isEndUnit := false, hasAC := false, isRainscreened := false }

/-- An all-zero linear coefficient record. -/
def zeroLinearCoefficients : ModelCoefficients :=
  { intercept := 0, coefSqft := 0, coefAge := 0, coefBath := 0, coefBedrooms := 0,
    coefCondition := 0, coefRainscreen := 0, coefAC := 0, coefEndUnit := 0,
    coefDoubleGarage := 0, coefTandemGarage := 0, coefExtraParking := 0,
    coefAssessment := 0, coefHasAssessment := 0, coefTax := 0, coefHasTax := 0,
    coefFeePerSqft := 0, coefListPrice := 0, coefHasListPrice := 0,
    isLogLinear := false, stdError := 0 }

/-! ## Claim theorems -/

/-- Claim C1 (confirmed): with coefficients `{intercept 13.5, coefSqft
0.0003, coefAge -0.01, coefBath 0.05, coefDoubleGarage 0.10, rest 0,
log-linear}` and inputs `{sqft 1500, year currentYear - 11, bathrooms 2.5,
double garage, rest baseline}`, `predictPrice` returns exactly
`e^(13.5 + 1500*0.0003 + 11*(-0.01) + 2.5*0.05 + 0.10)`. -/
theorem predictPrice_concrete_scenario (currentYear : ℝ) :
    predictPrice currentYear
      { baselineInputs with
          year := currentYear - 11,
          sqft := 1500,
          bathrooms := 2.5,
          parkingType := ParkingType.double }
      { zeroLinearCoefficients with
          intercept := 13.5,
          coefSqft := 0.0003,
          coefAge := -0.01,
          coefBath := 0.05,
          coefDoubleGarage := 0.10,
          isLogLinear := true } =
    Real.exp (13.5 + 1500 * 0.0003 + 11 * (-0.01) + 2.5 * 0.05 + 0.10) := by
  simp only [predictPrice, baselineInputs, zeroLinearCoefficients, boolVal,
    hasAssessmentVal, logAssessmentVal, hasTaxVal, taxPerSqftVal, feePerSqftVal,
    hasListPriceVal, logListPriceVal, extraParkingVal, parkingCoefVal]
  norm_num

/-- Witness for C1 at clock year 2025. -/
theorem predictPrice_concrete_scenario_witness :
    predictPrice 2025
      { baselineInputs with
          year := 2025 - 11,
          sqft := 1500,
          bathrooms := 2.5,
          parkingType := ParkingType.double }
      { zeroLinearCoefficients with
          intercept := 13.5,
          coefSqft := 0.0003,
          coefAge := -0.01,
          coefBath := 0.05,
          coefDoubleGarage := 0.10,
          isLogLinear := true } =
    Real.exp (13.5 + 1500 * 0.0003 + 11 * (-0.01) + 2.5 * 0.05 + 0.10) :=
  predictPrice_concrete_scenario 2025

/-- Claim C2 (code_bug): on a dataset with zero valid listings the final
model builder does not return a `sampleSize 0` model — the
`sortedLocations[0][0]` read throws, modelled by `none`. -/
theorem generateMarketModelTH_empty_valid (today : String) (currentYear : ℝ)
    (data : List ListingTH) (h : validDataTH data = []) :
    generateMarketModelTH today currentYear data = none := by
  have h2 : sortedLocationsOf data = [] := sortedLocationsOf_eq_nil data h
  simp [generateMarketModelTH, h2]

/-- Witness for C2 at the empty batch. -/
theorem generateMarketModelTH_empty_valid_witness :
    validDataTH [] = [] ∧ generateMarketModelTH "" 2025 [] = none :=
  ⟨rfl, generateMarketModelTH_empty_valid "" 2025 [] rfl⟩

/-- Counterexample for claim C3: this listing satisfies the three conditions
`price > 100000`, `sqft > 300`, `year > 1900`, yet the final model builder
excludes it (its strata fee is 0). -/
theorem validDataTH_excludes_feeless :
    (100000 < feelessListing.price ∧ 300 < feelessListing.sqft ∧
      1900 < feelessListing.year) ∧
    feelessListing ∉ validDataTH [feelessListing] := by
  constructor
  · refine ⟨?_, ?_, ?_⟩ <;> · simp only [feelessListing]; norm_num
  · intro hm
    have hv : IsValidTH feelessListing :=
      of_decide_eq_true (List.mem_filter.mp hm).2
    have h4 := hv.2.2.2
    rw [show feelessListing.fee = 0 from rfl] at h4
    exact absurd h4 (by norm_num)

/-- Claim C3 (corrected): membership in the fitted dataset.  The final model
builder (`part_003`) requires the three claimed conditions AND a positive
strata fee; the earlier calculator-era builder (`analysis.ts`) uses exactly
the three claimed conditions. -/
theorem validData_membership (d : ListingTH) (data : List ListingTH) :
    (d ∈ validDataTH data ↔ d ∈ data ∧
      (100000 < d.price ∧ 300 < d.sqft ∧ 1900 < d.year ∧ 0 < d.fee)) ∧
    (d ∈ validDataLegacy data ↔ d ∈ data ∧
      (100000 < d.price ∧ 300 < d.sqft ∧ 1900 < d.year)) := by
  constructor
  · rw [validDataTH, List.mem_filter, decide_eq_true_eq]
    exact Iff.rfl
  · rw [validDataLegacy, List.mem_filter, decide_eq_true_eq]
    exact Iff.rfl

/-- Witness for C3 at the singleton batch of the sample listing. -/
theorem validData_membership_witness :
    (sampleListing ∈ validDataTH [sampleListing] ↔ sampleListing ∈ [sampleListing] ∧
      (100000 < sampleListing.price ∧ 300 < sampleListing.sqft ∧
        1900 < sampleListing.year ∧ 0 < sampleListing.fee)) ∧
    (sampleListing ∈ validDataLegacy [sampleListing] ↔
      sampleListing ∈ [sampleListing] ∧
      (100000 < sampleListing.price ∧ 300 < sampleListing.sqft ∧
        1900 < sampleListing.year)) :=
  validData_membership sampleListing [sampleListing]

/-- Inputs whose only non-baseline attribute is a location adjustment of 7. -/
def locationInputs : CalculatorInputs := { baselineInputs with areaCoefVal := 7 }

/-- A linear model with intercept 100 and every coefficient zero. -/
def interceptOnlyLinear : ModelCoefficients :=
  { zeroLinearCoefficients with intercept := 100 }

/-- Counterexample for claim C4: under the linear specification the
Decomposer does not report the location impact as
`finalPrice - (finalPrice - term)`; the source uses a counterfactual of `0`
for the location group, so the reported impact is the whole final price. -/
theorem componentImpacts_linear_location_cex :
    (calculateComponentImpacts 2025 locationInputs interceptOnlyLinear).valLoc ≠
      predictPrice 2025 locationInputs interceptOnlyLinear -
        specCounterfactual interceptOnlyLinear.isLogLinear
          (predictPrice 2025 locationInputs interceptOnlyLinear)
          locationInputs.areaCoefVal := by
  have hF : predictPrice 2025 locationInputs interceptOnlyLinear = 107 := by
    simp only [predictPrice, locationInputs, baselineInputs, interceptOnlyLinear,
      zeroLinearCoefficients, boolVal, hasAssessmentVal, logAssessmentVal,
      hasTaxVal, taxPerSqftVal, feePerSqftVal, hasListPriceVal, logListPriceVal,
      extraParkingVal, parkingCoefVal]
    norm_num
  have hbool : interceptOnlyLinear.isLogLinear = false := rfl
  have harea : locationInputs.areaCoefVal = 7 := rfl
  have hLoc : (calculateComponentImpacts 2025 locationInputs
      interceptOnlyLinear).valLoc = 107 := by
    simp only [calculateComponentImpacts, hbool, Bool.false_eq_true, if_false]
    rw [hF]
    norm_num
  rw [hLoc, hF, harea, hbool, specCounterfactual]
  simp only [Bool.false_eq_true, if_false]
  norm_num

/-- Claim C4 (corrected): for each of the nine non-location factor groups the
Decomposer reports `finalPrice - counterfactual` with the counterfactual of
spec section 4.5 under both specifications, and likewise for the location
group under the log-linear specification; under the linear specification the
location counterfactual is `0`, so the location impact equals the final
price. -/
theorem componentImpacts_formulas (cy : ℝ) (i : CalculatorInputs)
    (c : ModelCoefficients) :
    (calculateComponentImpacts cy i c).valAge = predictPrice cy i c -
      specCounterfactual c.isLogLinear (predictPrice cy i c)
        ((cy - i.year) * c.coefAge) ∧
    (calculateComponentImpacts cy i c).valCondition = predictPrice cy i c -
      specCounterfactual c.isLogLinear (predictPrice cy i c)
        ((i.condition - 1) * c.coefCondition) ∧
    (calculateComponentImpacts cy i c).valBath = predictPrice cy i c -
      specCounterfactual c.isLogLinear (predictPrice cy i c)
        ((i.bathrooms - 1) * c.coefBath) ∧
    (calculateComponentImpacts cy i c).valBeds = predictPrice cy i c -
      specCounterfactual c.isLogLinear (predictPrice cy i c)
        ((i.bedrooms - 2) * c.coefBedrooms) ∧
    (calculateComponentImpacts cy i c).valParking = predictPrice cy i c -
      specCounterfactual c.isLogLinear (predictPrice cy i c)
        (parkingCoefVal i c + extraParkingVal i * c.coefExtraParking) ∧
    (calculateComponentImpacts cy i c).valFeatures = predictPrice cy i c -
      specCounterfactual c.isLogLinear (predictPrice cy i c)
        (boolVal i.isEndUnit * c.coefEndUnit + boolVal i.hasAC * c.coefAC +
          boolVal i.isRainscreened * c.coefRainscreen) ∧
    (calculateComponentImpacts cy i c).valAssessment = predictPrice cy i c -
      specCounterfactual c.isLogLinear (predictPrice cy i c)
        (logAssessmentVal i * c.coefAssessment +
          hasAssessmentVal i * c.coefHasAssessment) ∧
    (calculateComponentImpacts cy i c).valTax = predictPrice cy i c -
      specCounterfactual c.isLogLinear (predictPrice cy i c)
        (taxPerSqftVal i * c.coefTax + hasTaxVal i * c.coefHasTax) ∧
    (calculateComponentImpacts cy i c).valFee = predictPrice cy i c -
      specCounterfactual c.isLogLinear (predictPrice cy i c)
        (feePerSqftVal i * c.coefFeePerSqft) ∧
    (calculateComponentImpacts cy i c).valLoc =
      (if c.isLogLinear then
        predictPrice cy i c -
          specCounterfactual true (predictPrice cy i c) i.areaCoefVal
      else predictPrice cy i c) := by
  cases hb : c.isLogLinear <;>
    simp [calculateComponentImpacts, specCounterfactual, hb]

/-- Witness for C4 at baseline inputs and the zero linear model. -/
theorem componentImpacts_formulas_witness :
    (calculateComponentImpacts 2025 baselineInputs zeroLinearCoefficients).valAge =
      predictPrice 2025 baselineInputs zeroLinearCoefficients -
        specCounterfactual zeroLinearCoefficients.isLogLinear
          (predictPrice 2025 baselineInputs zeroLinearCoefficients)
          ((2025 - baselineInputs.year) * zeroLinearCoefficients.coefAge) :=
  (componentImpacts_formulas 2025 baselineInputs zeroLinearCoefficients).1

/-- Inputs whose only non-baseline attributes are a monthly strata fee of 100
on 1200 square feet (annualized fee per square foot exactly 1). -/
def feeInputs : CalculatorInputs :=
  { baselineInputs with strataFee := 100, sqft := 1200 }

/-- A linear model whose only non-zero coefficient is `coefFeePerSqft = 1`. -/
def feeOnlyLinear : ModelCoefficients :=
  { zeroLinearCoefficients with coefFeePerSqft := 1 }

/-- Counterexample for claim C5: under the linear specification the returned
price omits the annualized strata-fee-per-square-foot term — the full term
sum is 1 here, but `predictPrice` returns 0. -/
theorem predictPrice_linear_fee_cex :
    predictPrice 2025 feeInputs feeOnlyLinear ≠
      specTermSum 2025 feeInputs feeOnlyLinear := by
  have h1 : predictPrice 2025 feeInputs feeOnlyLinear = 0 := by
    simp only [predictPrice, feeInputs, baselineInputs, feeOnlyLinear,
      zeroLinearCoefficients, boolVal, hasAssessmentVal, logAssessmentVal,
      hasTaxVal, taxPerSqftVal, feePerSqftVal, hasListPriceVal, logListPriceVal,
      extraParkingVal, parkingCoefVal]
    norm_num
  have h2 : specTermSum 2025 feeInputs feeOnlyLinear = 1 := by
    simp only [specTermSum, feeInputs, baselineInputs, feeOnlyLinear,
      zeroLinearCoefficients, boolVal, hasAssessmentVal, logAssessmentVal,
      hasTaxVal, taxPerSqftVal, feePerSqftVal, hasListPriceVal, logListPriceVal,
      extraParkingVal, parkingCoefVal]
    norm_num
  rw [h1, h2]
  norm_num

/-- Claim C5 (corrected): the Predictor is the spec's term sum,
exponentiated, under the log-linear specification; under the linear
specification it is the spec's term sum minus the annualized
strata-fee-per-square-foot term, which the linear branch omits. -/
theorem predictPrice_eq_specTermSum (cy : ℝ) (i : CalculatorInputs)
    (c : ModelCoefficients) :
    predictPrice cy i c =
      if c.isLogLinear then Real.exp (specTermSum cy i c)
      else specTermSum cy i c - feePerSqftVal i * c.coefFeePerSqft := by
  cases hb : c.isLogLinear
  · simp only [predictPrice, specTermSum, hb, Bool.false_eq_true, if_false]
    ring
  · simp only [predictPrice, specTermSum, hb, if_true]

/-- Witness for C5 at baseline inputs and the zero linear model. -/
theorem predictPrice_eq_specTermSum_witness :
    predictPrice 2025 baselineInputs zeroLinearCoefficients =
      if zeroLinearCoefficients.isLogLinear then
        Real.exp (specTermSum 2025 baselineInputs zeroLinearCoefficients)
      else specTermSum 2025 baselineInputs zeroLinearCoefficients -
        feePerSqftVal baselineInputs * zeroLinearCoefficients.coefFeePerSqft :=
  predictPrice_eq_specTermSum 2025 baselineInputs zeroLinearCoefficients

/-- Claim C6 (confirmed): for a non-empty rectangular design matrix, the OLS
solver reports standard errors `sqrt(max(0, σ² · diag((XᵗX)⁻¹)_j))` with
`σ² = RSS/(n−p)` for `n > p` and `0` otherwise (the inverse being the
ridge-regularized one the solver computes), and t-statistics `β_j / se_j`,
reported as `0` whenever `se_j` is below `1e-10`. -/
theorem solveOLS_statistics (X : List (List ℝ)) (y : List ℝ) (p : ℕ)
    (hX : X ≠ []) (hrow : ∀ row ∈ X, row.length = p) :
    (solveOLS X y).betas.length = p ∧
    (solveOLS X y).stdErrors.length = p ∧
    (solveOLS X y).tStats.length = p ∧
    ∀ j, j < p →
      ((solveOLS X y).stdErrors.getD j 0 =
        Real.sqrt (max 0 (olsSigma2 X y (solveOLS X y).betas *
          (xtxRidgedInverse X).entry j j))) ∧
      ((solveOLS X y).stdErrors.getD j 0 < 1e-10 →
        (solveOLS X y).tStats.getD j 0 = 0) ∧
      (1e-10 < (solveOLS X y).stdErrors.getD j 0 →
        (solveOLS X y).tStats.getD j 0 =
          (solveOLS X y).betas.getD j 0 / (solveOLS X y).stdErrors.getD j 0) := by
  have hp : X.headI.length = p := by
    cases X with
    | nil => exact absurd rfl hX
    | cons r t => exact hrow r (List.mem_cons_self r t)
  subst hp
  simp only [solveOLS_betas, solveOLS_stdErrors, solveOLS_tStats]
  refine ⟨olsBetas_length X y, ?_, ?_, ?_⟩
  · rw [olsStdErrors, List.length_map, List.length_range]
  · rw [olsTStats, List.length_map, List.length_range]
  · intro j hj
    refine ⟨?_, ?_, ?_⟩
    · rw [olsStdErrors, getD_map_range _ _ _ _ hj, olsSigma2Loop_eq]
    · intro hlt
      rw [olsTStats, getD_map_range _ _ _ _ hj, if_neg (lt_asymm hlt)]
    · intro hgt
      rw [olsTStats, getD_map_range _ _ _ _ hj, if_pos hgt]

/-- Witness for C6 on a concrete 2-sample, 1-column design matrix. -/
theorem solveOLS_statistics_witness :
    ([[(1 : ℝ)], [1]] ≠ ([] : List (List ℝ))) ∧
      (solveOLS [[(1 : ℝ)], [1]] [1, 2]).betas.length = 1 :=
  ⟨by simp,
    (solveOLS_statistics [[(1 : ℝ)], [1]] [1, 2] 1 (by simp)
      (by
        intro row hrow
        rcases List.mem_cons.mp hrow with rfl | h2
        · rfl
        · rcases List.mem_singleton.mp h2 with rfl
          rfl)).1⟩

/-- Counterexample for claim C7: with a zero residual standard error the
linear bounds coincide with the price, so `lowerBound < price` fails. -/
theorem priceRange_zero_stderr_cex :
    ¬ (calculatePriceRange 1000000
        { isLogLinear := false, stdError := 0 }).lowerBound < 1000000 := by
  simp only [calculatePriceRange, Bool.false_eq_true, if_false]
  norm_num

/-- Claim C7 (corrected): with the fixed z-score 1.28, the bounds are
`price / e^(z·se)` and `price · e^(z·se)` for log-linear models and
`price ∓ z·se` for linear models; the bracketing
`lowerBound < price < upperBound` is strict when the standard error is
positive (and, for log-linear models, the price is positive), and the linear
interval is exactly symmetric around the price. -/
theorem priceRange_brackets (price se : ℝ) (b : Bool) (hse : 0 < se)
    (hp : b = true → 0 < price) :
    ((calculatePriceRange price ⟨b, se⟩).lowerBound < price ∧
      price < (calculatePriceRange price ⟨b, se⟩).upperBound) ∧
    (b = false →
      price - (calculatePriceRange price ⟨b, se⟩).lowerBound =
        (calculatePriceRange price ⟨b, se⟩).upperBound - price) ∧
    (calculatePriceRange price ⟨b, se⟩).lowerBound =
      (if b then price / Real.exp (1.28 * se) else price - 1.28 * se) ∧
    (calculatePriceRange price ⟨b, se⟩).upperBound =
      (if b then price * Real.exp (1.28 * se) else price + 1.28 * se) := by
  cases b
  · simp only [calculatePriceRange, Bool.false_eq_true, if_false]
    have hz : 0 < 1.28 * se := by linarith
    refine ⟨⟨by linarith, by linarith⟩, fun _ => by ring, by trivial, by trivial⟩
  · have hp' := hp rfl
    have hm : 1 < Real.exp (1.28 * se) := by
      rw [Real.one_lt_exp_iff]
      linarith
    simp only [calculatePriceRange, if_true]
    exact ⟨⟨div_lt_self hp' hm, lt_mul_of_one_lt_right hp' hm⟩,
      fun hfalse => absurd hfalse (by simp), by trivial, by trivial⟩

/-- Witness for C7 on a concrete linear model. -/
theorem priceRange_brackets_witness :
    (0 : ℝ) < 50000 ∧
      (calculatePriceRange 1000000 ⟨false, 50000⟩).lowerBound < 1000000 :=
  ⟨by norm_num,
    ((priceRange_brackets 1000000 50000 false (by norm_num)
      (fun h => absurd h (by simp))).1).1⟩

/-- A linear model whose only non-zero coefficient is `coefAge = 1`. -/
def ageOnlyLinear : ModelCoefficients :=
  { zeroLinearCoefficients with coefAge := 1 }

/-- Inputs with year built 2000 and all other attributes at baseline. -/
def yearInputs : CalculatorInputs := { baselineInputs with year := 2000 }

/-- Counterexample for claim C8: `predictPrice` reads the ambient clock
(`new Date().getFullYear()`), so identical declared arguments give different
outputs in different calendar years. -/
theorem predictPrice_clock_dependence_cex :
    predictPrice 2025 yearInputs ageOnlyLinear ≠
      predictPrice 2026 yearInputs ageOnlyLinear := by
  have h1 : predictPrice 2025 yearInputs ageOnlyLinear = 25 := by
    simp only [predictPrice, yearInputs, baselineInputs, ageOnlyLinear,
      zeroLinearCoefficients, boolVal, hasAssessmentVal, logAssessmentVal,
      hasTaxVal, taxPerSqftVal, feePerSqftVal, hasListPriceVal, logListPriceVal,
      extraParkingVal, parkingCoefVal]
    norm_num
  have h2 : predictPrice 2026 yearInputs ageOnlyLinear = 26 := by
    simp only [predictPrice, yearInputs, baselineInputs, ageOnlyLinear,
      zeroLinearCoefficients, boolVal, hasAssessmentVal, logAssessmentVal,
      hasTaxVal, taxPerSqftVal, feePerSqftVal, hasListPriceVal, logListPriceVal,
      extraParkingVal, parkingCoefVal]
    norm_num
  rw [h1, h2]
  norm_num

/-- Claim C8 (corrected): `predictPrice` is a deterministic function of the
Model, the PredictionInput and the ambient clock year; the clock enters only
through `age = currentYear - yearBuilt`, so shifting the clock and the year
built together leaves the output unchanged. -/
theorem predictPrice_deterministic_mod_clock (y1 y2 : ℝ) (i : CalculatorInputs)
    (c : ModelCoefficients) :
    predictPrice y1 i c =
      predictPrice y2 { i with year := i.year + (y2 - y1) } c := by
  have hage : y2 - (i.year + (y2 - y1)) = y1 - i.year := by ring
  cases hb : c.isLogLinear <;>
    simp only [predictPrice, hb, Bool.false_eq_true, if_false, if_true,
      hasAssessmentVal, logAssessmentVal, hasTaxVal, taxPerSqftVal,
      feePerSqftVal, hasListPriceVal, logListPriceVal, extraParkingVal,
      parkingCoefVal, boolVal, hage]

/-- Witness for C8 upon shifting the clock from 2025 to 2026. -/
theorem predictPrice_deterministic_mod_clock_witness :
    predictPrice 2025 yearInputs ageOnlyLinear =
      predictPrice 2026
        { yearInputs with year := yearInputs.year + (2026 - 2025) } ageOnlyLinear :=
  predictPrice_deterministic_mod_clock 2025 2026 yearInputs ageOnlyLinear

/-- Claim C9 (confirmed): for every square matrix the inverse terminates and
returns a square matrix of the same size, and every pivot used in the
elimination is the clamped value, which is never zero (its absolute value is
at least `1e-10`). -/
theorem inverse_total_and_pivot_safe (M : Matrix) (n : ℕ) (hr : M.rowsN = n)
    (hc : M.colsN = n) (hwf : M.WellFormed n) :
    M.inverse.rowsN = n ∧ M.inverse.WellFormed n ∧
      ∀ x : ℝ, 1e-10 ≤ |clampPivot x| ∧ clampPivot x ≠ 0 := by
  obtain ⟨h1, h2⟩ := inverse_shape M n hr hc hwf
  refine ⟨h1, h2, fun x => ?_⟩
  have habs : 1e-10 ≤ |clampPivot x| := by
    rw [clampPivot]
    by_cases h : |x| < 1e-10
    · rw [if_pos h, abs_of_pos (by norm_num : (0 : ℝ) < 1e-10)]
    · rw [if_neg h]
      linarith [not_lt.mp h]
  refine ⟨habs, fun hz => ?_⟩
  rw [hz] at habs
  norm_num at habs

/-- Witness for C9 at the singular zero 2 × 2 matrix. -/
theorem inverse_total_and_pivot_safe_witness :
    (Matrix.mk [[(0 : ℝ), 0], [0, 0]]).rowsN = 2 ∧
      (Matrix.mk [[(0 : ℝ), 0], [0, 0]]).inverse.rowsN = 2 :=
  ⟨rfl,
    (inverse_total_and_pivot_safe ⟨[[0, 0], [0, 0]]⟩ 2 rfl rfl
      (by
        intro row hrow
        rcases List.mem_cons.mp hrow with rfl | h2
        · rfl
        · rcases List.mem_singleton.mp h2 with rfl
          rfl)).1⟩

/-- Claim C10 (confirmed): for a non-empty valid batch, every row of the
final model builder's design matrix has length 17 plus the number of
non-reference area dummies, and that number is exactly the count of distinct
observed locations minus the one reference location. -/
theorem designMatrix_row_lengths (cy : ℝ) (data : List ListingTH)
    (h : validDataTH data ≠ []) :
    (∀ row ∈ designMatrixTH cy data,
      row.length = 17 + (distinctAreasOf data).length) ∧
    (distinctAreasOf data).length + 1 =
      ((validDataTH data).map listingLocation).toFinset.card := by
  refine ⟨?_, distinctAreasOf_length data h⟩
  intro row hrow
  rw [designMatrixTH] at hrow
  obtain ⟨d, -, rfl⟩ := List.mem_map.mp hrow
  exact designRowTH_length ..

/-- Witness for C10 at a singleton batch. -/
theorem designMatrix_row_lengths_witness :
    validDataTH [sampleListing] ≠ [] ∧
      (distinctAreasOf [sampleListing]).length + 1 =
        ((validDataTH [sampleListing]).map listingLocation).toFinset.card := by
  have hvalid : validDataTH [sampleListing] ≠ [] := by
    rw [validDataTH, List.filter_cons, if_pos]
    · exact List.cons_ne_nil _ _
    · rw [decide_eq_true_eq]
      refine ⟨?_, ?_, ?_, ?_⟩ <;> · simp only [sampleListing]; norm_num
  exact ⟨hvalid, (designMatrix_row_lengths 2025 [sampleListing] hvalid).2⟩

end

end DepreCity
